import Mathlib

/-!
Shallow embedding of `src/archiver.js` from ronilaukkarinen/pipedrive-email-archiver.

The remote Pipedrive service is simulated: the paginated `GET mailbox/mailThreads`
endpoint is a list of responses consumed one per fetch call, and the
`PUT mailbox/mailThreads/{id}` endpoint is a function from thread id to an outcome.
Every operation additionally returns the list of network events it issues
(`fetch offset`, `put threadId`) plus the dry-run listing events, so that the
temporal properties (dry run issues no PUT, a fetch failure aborts before any PUT)
can be stated about traces.
-/

namespace Archiver

/-- An email thread as returned by the remote API.  `archived_flag` is a
boolean-like integer (0 = active); JS truthiness of the number is modelled as
`≠ 0`.  Display-only fields (`parties`) are not modelled. -/
structure Thread where
  id : Nat
  subject : Option String
  archived_flag : Nat
deriving Repr, DecidableEq

/-- The `this.stats` accumulator initialised in the constructor. -/
structure Stats where
  total : Nat
  archived : Nat
  alreadyArchived : Nat
  failed : Nat
deriving Repr, DecidableEq

/-- `this.stats = { total: 0, archived: 0, alreadyArchived: 0, failed: 0 }`. -/
def initStats : Stats := { total := 0, archived := 0, alreadyArchived := 0, failed := 0 }

/-- Network / output events issued by the archiver. -/
inductive Event where
  | fetch (offset : Nat)
  | put (threadId : Nat)
  | dryList (threadId : Nat)
deriving Repr, DecidableEq

/-- Whether an event is a mutating PUT request. -/
def Event.isPut : Event → Bool
  | .put _ => true
  | _ => false

/-- Outcome of a simulated `PUT mailbox/mailThreads/{id}` call: either a
response whose body has a (truthy or falsy) `success` field, or a thrown
transport/server error. -/
inductive PutOutcome where
  | ok (success : Bool)
  | err (msg : String)
deriving Repr, DecidableEq

/-- The remote service explicitly acknowledged success (`response.data.success`
truthy). -/
def ackSuccess : PutOutcome → Bool
  | .ok b => b
  | .err _ => false

/-- One simulated response of `GET mailbox/mailThreads`: either a body with an
optional `data` array and the truthiness of
`additional_data?.pagination?.more_items_in_collection`, or a thrown error. -/
inductive FetchResp where
  | ok (dat : Option (List Thread)) (more : Bool)
  | err (msg : String)
deriving Repr, DecidableEq

/-- The fetch call threw. -/
def FetchResp.isErr : FetchResp → Bool
  | .err _ => true
  | _ => false

/-- `archiveThread(threadId)`: issues the PUT, then on a truthy `success`
increments `archived` and returns `true`; otherwise (falsy `success`, or a
caught thrown error) increments `failed` and returns `false`.  Result:
(returned boolean, updated stats, events issued). -/
def archiveThread (putResp : Nat → PutOutcome) (stats : Stats) (threadId : Nat) :
    Bool × Stats × List Event :=
  match putResp threadId with
  | .ok true => (true, { stats with archived := stats.archived + 1 }, [Event.put threadId])
  | .ok false => (false, { stats with failed := stats.failed + 1 }, [Event.put threadId])
  | .err _ => (false, { stats with failed := stats.failed + 1 }, [Event.put threadId])

/-- The `for` loop of `archiveAll`: calls `archiveThread` on each thread in
order, ignoring the returned boolean (the 100 ms delay has no observable
effect in this model). -/
def archiveAllLoop (putResp : Nat → PutOutcome) : List Thread → Stats → Stats × List Event
  | [], stats => (stats, [])
  | t :: rest, stats =>
    let one := archiveThread putResp stats t.id
    let tail := archiveAllLoop putResp rest one.2.1
    (tail.1, one.2.2 ++ tail.2)

/-- `archiveAll(threads)`: if `process.argv` contains `--dry-run`, lists each
candidate as "would archive" and returns without contacting the remote
service; otherwise sets `stats.total = threads.length` and runs the loop. -/
def archiveAll (argv : List String) (putResp : Nat → PutOutcome)
    (threads : List Thread) (stats : Stats) : Stats × List Event :=
  if argv.contains "--dry-run" then
    (stats, threads.map (fun t => Event.dryList t.id))
  else
    archiveAllLoop putResp threads { stats with total := threads.length }

/-- The `while (hasMore)` loop of `getAllThreads`, one simulated response per
fetch call.  An exhausted response list behaves as an empty page.  Mirrors the
source: a page with a present, non-empty `data` array is appended and `start`
advances by `limit`; then the loop continues only if the pagination indicator
is truthy; a missing or empty `data` array ends the loop. -/
def getAllThreadsGo (limit : Nat) :
    List FetchResp → Nat → List Thread → Except String (List Thread) × List Event
  | [], start, acc => (Except.ok acc, [Event.fetch start])
  | FetchResp.err m :: _, start, _ => (Except.error m, [Event.fetch start])
  | FetchResp.ok dat more :: rest, start, acc =>
    match dat with
    | some ts =>
      if ts.length > 0 then
        if more then
          let tail := getAllThreadsGo limit rest (start + limit) (acc ++ ts)
          (tail.1, Event.fetch start :: tail.2)
        else (Except.ok (acc ++ ts), [Event.fetch start])
      else (Except.ok acc, [Event.fetch start])
    | none => (Except.ok acc, [Event.fetch start])

/-- `getAllThreads()`: starts at offset 0 with page size 100. -/
def getAllThreads (resps : List FetchResp) : Except String (List Thread) × List Event :=
  getAllThreadsGo 100 resps 0 []

/-- `threads.filter(t => !t.archived_flag)` from `displayThreadInfo`. -/
def unarchivedOf (threads : List Thread) : List Thread :=
  threads.filter (fun t => t.archived_flag == 0)

/-- `threads.filter(t => t.archived_flag)` from `displayThreadInfo`. -/
def archivedOf (threads : List Thread) : List Thread :=
  threads.filter (fun t => t.archived_flag != 0)

/-- `displayThreadInfo(threads)`: prints the summary (not modelled) and
returns the unarchived threads. -/
def displayThreadInfo (threads : List Thread) : List Thread := unarchivedOf threads

/-- `confirmArchive(threadCount)`: returns `true` immediately when
`process.argv` contains `--yes` or `-y`; otherwise returns the interactive
prompt's answer.  Result: (answer, whether the prompt was invoked). -/
def confirmArchive (argv : List String) (_threadCount : Nat) (promptAnswer : Bool) :
    Bool × Bool :=
  if argv.contains "--yes" || argv.contains "-y" then (true, false)
  else (promptAnswer, true)

/-- Result of one `run()`: final stats, events issued, and whether the fatal
catch fired (`process.exit(1)`). -/
structure RunResult where
  stats : Stats
  events : List Event
  fatal : Bool
deriving Repr, DecidableEq

/-- `run()`: fetch all threads (a thrown fetch error is caught at the bottom as
a fatal error), return early when no threads / no unarchived threads / the
confirmation is declined, otherwise archive the unarchived threads. -/
def run (argv : List String) (resps : List FetchResp) (putResp : Nat → PutOutcome)
    (promptAnswer : Bool) : RunResult :=
  match (getAllThreads resps).1 with
  | Except.error _ => { stats := initStats, events := (getAllThreads resps).2, fatal := true }
  | Except.ok allThreads =>
    if allThreads.length == 0 then
      { stats := initStats, events := (getAllThreads resps).2, fatal := false }
    else if (displayThreadInfo allThreads).length == 0 then
      { stats := initStats, events := (getAllThreads resps).2, fatal := false }
    else if !(confirmArchive argv (displayThreadInfo allThreads).length promptAnswer).1 then
      { stats := initStats, events := (getAllThreads resps).2, fatal := false }
    else
      { stats := (archiveAll argv putResp (displayThreadInfo allThreads) initStats).1,
        events := (getAllThreads resps).2 ++
          (archiveAll argv putResp (displayThreadInfo allThreads) initStats).2,
        fatal := false }

/-! ### Specification-side definitions (formalising the spec's words, for C1/C8) -/

/-- Spec side: a response at which the loop stops — the `data` array is missing
or empty, the pagination indicator is falsy, or the call throws. -/
def FetchResp.isTerminal : FetchResp → Bool
  | .ok (some ts) more => ts.isEmpty || !more
  | .ok none _ => true
  | .err _ => true

/-- Spec side: the items a page contributes. -/
def respItems : FetchResp → List Thread
  | .ok (some ts) _ => ts
  | .ok none _ => []
  | .err _ => []

/-- Spec side: the prefix of the simulated responses up to and including the
first terminal one (the pages the loop consumes). -/
def specConsumed : List FetchResp → List FetchResp
  | [] => []
  | r :: rest => if r.isTerminal then [r] else r :: specConsumed rest

/-- Spec side: the concatenation of the pages' items in order. -/
def specConcat : List FetchResp → List Thread
  | [] => []
  | r :: rest => respItems r ++ specConcat rest

/-- Spec side: the fetch result is an error. -/
def isErrorRes : Except String (List Thread) → Bool
  | Except.error _ => true
  | Except.ok _ => false

/-- Spec side (C8): an event is acceptable when it is not a PUT, or it is a PUT
whose thread id belongs to the unarchived partition of the fetched threads. -/
def putFromUnarchived (resps : List FetchResp) : Event → Bool
  | Event.put i =>
    match (getAllThreads resps).1 with
    | Except.ok ts => decide (i ∈ (unarchivedOf ts).map Thread.id)
    | Except.error _ => false
  | _ => true

/-- Spec side (C1): the offsets of `n` successive fetch calls starting at
`start`, advancing by `limit` after each. -/
def specOffsets (limit : Nat) : Nat → Nat → List Nat
  | _, 0 => []
  | start, n + 1 => start :: specOffsets limit (start + limit) n

/-! ### Helper lemmas -/

theorem specOffsets_eq_range (limit : Nat) :
    ∀ n start, specOffsets limit start n = (List.range n).map (fun i => start + limit * i) := by
  intro n
  induction n with
  | zero => intro start; simp [specOffsets]
  | succ k ih =>
    intro start
    rw [specOffsets, ih (start + limit), List.range_succ_eq_map, List.map_cons, List.map_map]
    have hfun : ((fun i => start + limit * i) ∘ Nat.succ) =
        (fun i => start + limit + limit * i) := by
      funext i
      simp only [Function.comp_apply, Nat.mul_succ]
      ring
    simp [hfun]

theorem getAllThreadsGo_events (limit : Nat) (resps : List FetchResp) :
    ∀ start acc, ∀ e ∈ (getAllThreadsGo limit resps start acc).2, ∃ o, e = Event.fetch o := by
  induction resps with
  | nil =>
    intro start acc e he
    simp [getAllThreadsGo] at he
    exact ⟨start, he⟩
  | cons r rest ih =>
    intro start acc e he
    cases r with
    | err m =>
      simp [getAllThreadsGo] at he
      exact ⟨start, he⟩
    | ok dat more =>
      cases dat with
      | none =>
        simp [getAllThreadsGo] at he
        exact ⟨start, he⟩
      | some ts =>
        by_cases hlen : ts.length > 0
        · by_cases hm : more
          · subst hm
            simp [getAllThreadsGo, hlen] at he
            rcases he with he | he
            · exact ⟨start, he⟩
            · exact ih (start + limit) (acc ++ ts) e he
          · have hm' : more = false := by simpa using hm
            subst hm'
            simp [getAllThreadsGo, hlen] at he
            exact ⟨start, he⟩
        · simp [getAllThreadsGo, hlen] at he
          exact ⟨start, he⟩

theorem getAllThreadsGo_characterisation (limit : Nat) (resps : List FetchResp) :
    ∀ start acc, resps.all (fun r => !r.isErr) = true →
      resps.any FetchResp.isTerminal = true →
      getAllThreadsGo limit resps start acc =
        (Except.ok (acc ++ specConcat (specConsumed resps)),
         (specOffsets limit start (specConsumed resps).length).map Event.fetch) := by
  induction resps with
  | nil =>
    intro start acc h1 h2
    simp at h2
  | cons r rest ih =>
    intro start acc h1 h2
    cases r with
    | err m => simp [FetchResp.isErr] at h1
    | ok dat more =>
      cases dat with
      | none =>
        simp [getAllThreadsGo, specConsumed, FetchResp.isTerminal, specConcat, respItems,
          specOffsets]
      | some ts =>
        by_cases hts : ts = []
        · subst hts
          simp [getAllThreadsGo, specConsumed, FetchResp.isTerminal, specConcat, respItems,
            specOffsets]
        · have hlen : ts.length > 0 := List.length_pos.mpr hts
          cases more with
          | false =>
            simp [getAllThreadsGo, hlen, specConsumed, FetchResp.isTerminal, hts, specConcat,
              respItems, specOffsets]
          | true =>
            have hterm : FetchResp.isTerminal (FetchResp.ok (some ts) true) = false := by
              simp [FetchResp.isTerminal, hts]
            have h1' : rest.all (fun r => !r.isErr) = true := by
              simp only [List.all_cons, Bool.and_eq_true] at h1
              exact h1.2
            have h2' : rest.any FetchResp.isTerminal = true := by
              simp [List.any_cons, hterm] at h2
              simpa using h2
            have hcons : specConsumed (FetchResp.ok (some ts) true :: rest) =
                FetchResp.ok (some ts) true :: specConsumed rest := by
              simp [specConsumed, hterm]
            rw [hcons]
            have hgo : getAllThreadsGo limit (FetchResp.ok (some ts) true :: rest) start acc =
                ((getAllThreadsGo limit rest (start + limit) (acc ++ ts)).1,
                 Event.fetch start ::
                   (getAllThreadsGo limit rest (start + limit) (acc ++ ts)).2) := by
              simp [getAllThreadsGo, hlen]
            rw [hgo, ih (start + limit) (acc ++ ts) h1' h2']
            simp [specConcat, respItems, specOffsets]

theorem archiveAllLoop_stats (putResp : Nat → PutOutcome) (threads : List Thread) :
    ∀ stats : Stats,
      (archiveAllLoop putResp threads stats).1.total = stats.total ∧
      (archiveAllLoop putResp threads stats).1.alreadyArchived = stats.alreadyArchived ∧
      (archiveAllLoop putResp threads stats).1.archived =
        stats.archived + threads.countP (fun t => ackSuccess (putResp t.id)) ∧
      (archiveAllLoop putResp threads stats).1.failed =
        stats.failed + threads.countP (fun t => !ackSuccess (putResp t.id)) := by
  induction threads with
  | nil => intro stats; simp [archiveAllLoop]
  | cons t rest ih =>
    intro stats
    cases hput : putResp t.id with
    | ok b =>
      cases b
      · have := ih { stats with failed := stats.failed + 1 }
        simp [archiveAllLoop, archiveThread, hput, List.countP_cons, ackSuccess, this]
        omega
      · have := ih { stats with archived := stats.archived + 1 }
        simp [archiveAllLoop, archiveThread, hput, List.countP_cons, ackSuccess, this]
        omega
    | err m =>
      have := ih { stats with failed := stats.failed + 1 }
      simp [archiveAllLoop, archiveThread, hput, List.countP_cons, ackSuccess, this]
      omega

theorem archiveAllLoop_events (putResp : Nat → PutOutcome) (threads : List Thread) :
    ∀ stats : Stats,
      (archiveAllLoop putResp threads stats).2 = threads.map (fun t => Event.put t.id) := by
  induction threads with
  | nil => intro stats; simp [archiveAllLoop]
  | cons t rest ih =>
    intro stats
    cases hput : putResp t.id with
    | ok b =>
      cases b
      · simp [archiveAllLoop, archiveThread, hput, ih]
      · simp [archiveAllLoop, archiveThread, hput, ih]
    | err m => simp [archiveAllLoop, archiveThread, hput, ih]

theorem getAllThreads_events_pred (resps : List FetchResp) (p : Event → Bool)
    (hp : ∀ o, p (Event.fetch o) = true) :
    (getAllThreads resps).2.all p = true := by
  rw [List.all_eq_true]
  intro e he
  obtain ⟨o, rfl⟩ := getAllThreadsGo_events 100 resps 0 [] e he
  exact hp o

theorem countP_not_add (l : List Thread) (p : Thread → Bool) :
    l.countP p + l.countP (fun t => !p t) = l.length := by
  induction l with
  | nil => simp
  | cons a l ih =>
    by_cases hp : p a = true
    · simp [List.countP_cons, hp]
      omega
    · simp only [Bool.not_eq_true] at hp
      simp [List.countP_cons, hp]
      omega

theorem run_fetch_error (argv : List String) (resps : List FetchResp)
    (putResp : Nat → PutOutcome) (promptAnswer : Bool) (m : String)
    (hres : (getAllThreads resps).1 = Except.error m) :
    run argv resps putResp promptAnswer =
      { stats := initStats, events := (getAllThreads resps).2, fatal := true } := by
  unfold run
  rw [hres]

theorem run_no_threads (argv : List String) (resps : List FetchResp)
    (putResp : Nat → PutOutcome) (promptAnswer : Bool) (ts : List Thread)
    (hres : (getAllThreads resps).1 = Except.ok ts)
    (h0 : ts.length = 0) :
    run argv resps putResp promptAnswer =
      { stats := initStats, events := (getAllThreads resps).2, fatal := false } := by
  unfold run
  rw [hres]
  simp [h0]

theorem run_all_archived (argv : List String) (resps : List FetchResp)
    (putResp : Nat → PutOutcome) (promptAnswer : Bool) (ts : List Thread)
    (hres : (getAllThreads resps).1 = Except.ok ts)
    (h1 : (displayThreadInfo ts).length = 0) :
    run argv resps putResp promptAnswer =
      { stats := initStats, events := (getAllThreads resps).2, fatal := false } := by
  unfold run
  rw [hres]
  by_cases h0 : ts.length = 0 <;> simp [h0, h1]

theorem run_declined (argv : List String) (resps : List FetchResp)
    (putResp : Nat → PutOutcome) (promptAnswer : Bool) (ts : List Thread)
    (hres : (getAllThreads resps).1 = Except.ok ts)
    (hconf : (confirmArchive argv (displayThreadInfo ts).length promptAnswer).1 = false) :
    run argv resps putResp promptAnswer =
      { stats := initStats, events := (getAllThreads resps).2, fatal := false } := by
  unfold run
  rw [hres]
  by_cases h0 : ts.length = 0
  · simp [h0]
  · by_cases h1 : (displayThreadInfo ts).length = 0 <;> simp [h0, h1, hconf]

theorem run_archive_case (argv : List String) (resps : List FetchResp)
    (putResp : Nat → PutOutcome) (promptAnswer : Bool) (ts : List Thread)
    (hres : (getAllThreads resps).1 = Except.ok ts)
    (h0 : ts.length ≠ 0)
    (h1 : (displayThreadInfo ts).length ≠ 0)
    (hconf : (confirmArchive argv (displayThreadInfo ts).length promptAnswer).1 = true) :
    run argv resps putResp promptAnswer =
      { stats := (archiveAll argv putResp (displayThreadInfo ts) initStats).1,
        events := (getAllThreads resps).2 ++
          (archiveAll argv putResp (displayThreadInfo ts) initStats).2,
        fatal := false } := by
  unfold run
  rw [hres]
  simp [h0, h1, hconf]

/-! ### Concrete data used by the witnesses -/

/-- A sample thread with the given id and archive flag. -/
def wT (n : Nat) (f : Nat) : Thread := { id := n, subject := none, archived_flag := f }

/-- A sample paginated response sequence: a full page with the indicator set,
then a final page with the indicator cleared. -/
def wResps : List FetchResp :=
  [FetchResp.ok (some [wT 1 0, wT 2 1]) true, FetchResp.ok (some [wT 3 0]) false]

/-- A sample PUT endpoint: rejects thread 2 (`success: false`), acknowledges
everything else. -/
def wPut : Nat → PutOutcome := fun i => if i == 2 then PutOutcome.ok false else PutOutcome.ok true

/-! ### The claims -/

/-- C1: for every simulated sequence of paginated responses (none of which
throws, and at least one of which is terminal), `getAllThreads` returns the
concatenation of the consumed pages' items in order, issuing fetch calls whose
offsets start at 0 and advance by the page size (100) after each non-empty
page, and it stops exactly at the first page whose pagination indicator is
falsy or whose `data` array is missing or empty — the number of fetch calls
equals the length of the consumed prefix. -/
theorem claim_C1_fetchAll_concat (resps : List FetchResp)
    (h1 : resps.all (fun r => !r.isErr) = true)
    (h2 : resps.any FetchResp.isTerminal = true) :
    getAllThreads resps =
      (Except.ok (specConcat (specConsumed resps)),
       (specOffsets 100 0 (specConsumed resps).length).map Event.fetch) ∧
    specOffsets 100 0 (specConsumed resps).length =
      (List.range (specConsumed resps).length).map (fun i => 100 * i) := by
  constructor
  · have h := getAllThreadsGo_characterisation 100 resps 0 [] h1 h2
    simpa [getAllThreads] using h
  · rw [specOffsets_eq_range]
    simp

/-- Witness for C1 at a concrete two-page response sequence. -/
theorem claim_C1_fetchAll_concat_witness :
    (wResps.all (fun r => !r.isErr) = true ∧ wResps.any FetchResp.isTerminal = true) ∧
    (getAllThreads wResps =
      (Except.ok (specConcat (specConsumed wResps)),
       (specOffsets 100 0 (specConsumed wResps).length).map Event.fetch) ∧
     specOffsets 100 0 (specConsumed wResps).length =
       (List.range (specConsumed wResps).length).map (fun i => 100 * i)) ∧
    getAllThreads wResps =
      (Except.ok [wT 1 0, wT 2 1, wT 3 0], [Event.fetch 0, Event.fetch 100]) :=
  ⟨⟨by decide, by decide⟩, claim_C1_fetchAll_concat wResps (by decide) (by decide), by rfl⟩

/-- C2: with `--dry-run` on the command line, `archiveAll` leaves the stats
untouched and its event trace is exactly one "would archive" listing per
candidate — in particular it contains no PUT request. -/
theorem claim_C2_dry_run_no_put (argv : List String) (putResp : Nat → PutOutcome)
    (threads : List Thread) (stats : Stats)
    (h : argv.contains "--dry-run" = true) :
    archiveAll argv putResp threads stats =
      (stats, threads.map (fun t => Event.dryList t.id)) ∧
    (archiveAll argv putResp threads stats).2.all (fun e => !e.isPut) = true := by
  have h' : "--dry-run" ∈ argv := by simpa using h
  have he : archiveAll argv putResp threads stats =
      (stats, threads.map (fun t => Event.dryList t.id)) := by
    simp [archiveAll, h']
  refine ⟨he, ?_⟩
  rw [he, List.all_eq_true]
  intro e hmem
  simp only [List.mem_map] at hmem
  obtain ⟨t, _, rfl⟩ := hmem
  rfl

/-- Witness for C2 at a concrete thread list. -/
theorem claim_C2_dry_run_no_put_witness :
    (["--dry-run"].contains "--dry-run" = true) ∧
    (archiveAll ["--dry-run"] wPut [wT 1 0, wT 2 0] initStats =
      (initStats, [Event.dryList 1, Event.dryList 2]) ∧
     (archiveAll ["--dry-run"] wPut [wT 1 0, wT 2 0] initStats).2.all
       (fun e => !e.isPut) = true) :=
  ⟨by decide, claim_C2_dry_run_no_put ["--dry-run"] wPut [wT 1 0, wT 2 0] initStats (by decide)⟩

/-- C3: with 3 threads of which the mutation endpoint acknowledges exactly 2
and rejects 1, a non-dry-run `archiveAll` ends with
`archived = 2`, `failed = 1`, `total = 3`. -/
theorem claim_C3_two_acked_one_rejected (argv : List String) (putResp : Nat → PutOutcome)
    (threads : List Thread)
    (hdry : argv.contains "--dry-run" = false)
    (hlen : threads.length = 3)
    (hsucc : threads.countP (fun t => ackSuccess (putResp t.id)) = 2) :
    (archiveAll argv putResp threads initStats).1.archived = 2 ∧
    (archiveAll argv putResp threads initStats).1.failed = 1 ∧
    (archiveAll argv putResp threads initStats).1.total = 3 := by
  have hdry' : "--dry-run" ∉ argv := by simpa using hdry
  have harch : archiveAll argv putResp threads initStats =
      archiveAllLoop putResp threads
        { total := threads.length, archived := 0, alreadyArchived := 0, failed := 0 } := by
    simp [archiveAll, hdry', initStats]
  obtain ⟨ht, _, ha, hf⟩ :=
    archiveAllLoop_stats putResp threads
      { total := threads.length, archived := 0, alreadyArchived := 0, failed := 0 }
  have hc := countP_not_add threads (fun t => ackSuccess (putResp t.id))
  dsimp only at ht ha hf
  rw [harch]
  refine ⟨?_, ?_, ?_⟩ <;> omega

/-- Witness for C3 at three concrete threads where thread 2 is rejected. -/
theorem claim_C3_two_acked_one_rejected_witness :
    (([] : List String).contains "--dry-run" = false ∧
     ([wT 1 0, wT 2 0, wT 3 0] : List Thread).length = 3 ∧
     ([wT 1 0, wT 2 0, wT 3 0] : List Thread).countP
       (fun t => ackSuccess (wPut t.id)) = 2) ∧
    ((archiveAll [] wPut [wT 1 0, wT 2 0, wT 3 0] initStats).1.archived = 2 ∧
     (archiveAll [] wPut [wT 1 0, wT 2 0, wT 3 0] initStats).1.failed = 1 ∧
     (archiveAll [] wPut [wT 1 0, wT 2 0, wT 3 0] initStats).1.total = 3) :=
  ⟨⟨by decide, by decide, by decide⟩,
   claim_C3_two_acked_one_rejected [] wPut [wT 1 0, wT 2 0, wT 3 0]
     (by decide) (by decide) (by decide)⟩

/-- C4: `archiveThread` returns `true` exactly when the remote service
acknowledges success; a falsy acknowledgment and a thrown error both increment
`failed` (and leave `archived` alone) while the function returns `false`
instead of propagating; and the batch loop issues a PUT for every thread in
the list, so a single failure never aborts the batch. -/
theorem claim_C4_archiveOne_failure_handling (putResp : Nat → PutOutcome) (stats : Stats)
    (tid : Nat) (threads : List Thread) :
    (archiveThread putResp stats tid).1 = ackSuccess (putResp tid) ∧
    (archiveThread putResp stats tid).2.1.failed =
      stats.failed + (if ackSuccess (putResp tid) then 0 else 1) ∧
    (archiveThread putResp stats tid).2.1.archived =
      stats.archived + (if ackSuccess (putResp tid) then 1 else 0) ∧
    (archiveAllLoop putResp threads stats).2 = threads.map (fun t => Event.put t.id) := by
  refine ⟨?_, ?_, ?_, archiveAllLoop_events putResp threads stats⟩ <;>
    (cases hput : putResp tid with
     | ok b => cases b <;> simp [archiveThread, hput, ackSuccess]
     | err m => simp [archiveThread, hput, ackSuccess])

/-- C9: when `--yes` or `-y` is on the command line, `confirmArchive` returns
`true` and the interactive prompt is not invoked, whatever the thread count
and whatever the prompt would have answered. -/
theorem claim_C9_yes_skips_prompt (argv : List String) (threadCount : Nat)
    (promptAnswer : Bool)
    (h : (argv.contains "--yes" || argv.contains "-y") = true) :
    confirmArchive argv threadCount promptAnswer = (true, false) := by
  have h' : "--yes" ∈ argv ∨ "-y" ∈ argv := by simpa using h
  rcases h' with h' | h' <;> simp [confirmArchive, h']

/-- Witness for C9 with `--yes` present and a prompt that would answer no. -/
theorem claim_C9_yes_skips_prompt_witness :
    ((["--yes"].contains "--yes" || ["--yes"].contains "-y") = true) ∧
    confirmArchive ["--yes"] 7 false = (true, false) :=
  ⟨by decide, claim_C9_yes_skips_prompt ["--yes"] 7 false (by decide)⟩

/-- C5: when the thread listing fails (the fetch loop ends in a thrown error),
`run` ends in the fatal catch (non-zero exit) and its event trace contains no
PUT request — the run aborts before any archive request is issued. -/
theorem claim_C5_fetch_failure_fatal (argv : List String) (resps : List FetchResp)
    (putResp : Nat → PutOutcome) (promptAnswer : Bool)
    (h : isErrorRes (getAllThreads resps).1 = true) :
    (run argv resps putResp promptAnswer).fatal = true ∧
    (run argv resps putResp promptAnswer).events.all (fun e => !e.isPut) = true := by
  have hnoput : (getAllThreads resps).2.all (fun e => !e.isPut) = true :=
    getAllThreads_events_pred resps _ (fun _ => rfl)
  cases hres : (getAllThreads resps).1 with
  | error m =>
    rw [run_fetch_error argv resps putResp promptAnswer m hres]
    exact ⟨rfl, hnoput⟩
  | ok ts => simp [isErrorRes, hres] at h

/-- Witness for C5 at a response sequence whose first fetch throws. -/
theorem claim_C5_fetch_failure_fatal_witness :
    (isErrorRes (getAllThreads [FetchResp.err "boom"]).1 = true) ∧
    ((run [] [FetchResp.err "boom"] wPut false).fatal = true ∧
     (run [] [FetchResp.err "boom"] wPut false).events.all (fun e => !e.isPut) = true) :=
  ⟨by decide, claim_C5_fetch_failure_fatal [] [FetchResp.err "boom"] wPut false (by decide)⟩

/-- C6: when the confirmation gate answers false, `run` issues no PUT request
and the final stats are all zero. -/
theorem claim_C6_confirm_false_no_mutation (argv : List String) (resps : List FetchResp)
    (putResp : Nat → PutOutcome) (promptAnswer : Bool) (cnt : Nat)
    (h : (confirmArchive argv cnt promptAnswer).1 = false) :
    (run argv resps putResp promptAnswer).stats.total = 0 ∧
    (run argv resps putResp promptAnswer).stats.archived = 0 ∧
    (run argv resps putResp promptAnswer).stats.alreadyArchived = 0 ∧
    (run argv resps putResp promptAnswer).stats.failed = 0 ∧
    (run argv resps putResp promptAnswer).events.all (fun e => !e.isPut) = true := by
  have hnoput : (getAllThreads resps).2.all (fun e => !e.isPut) = true :=
    getAllThreads_events_pred resps _ (fun _ => rfl)
  cases hres : (getAllThreads resps).1 with
  | error m =>
    rw [run_fetch_error argv resps putResp promptAnswer m hres]
    exact ⟨rfl, rfl, rfl, rfl, hnoput⟩
  | ok ts =>
    have hconf : (confirmArchive argv (displayThreadInfo ts).length promptAnswer).1 =
        false := h
    rw [run_declined argv resps putResp promptAnswer ts hres hconf]
    exact ⟨rfl, rfl, rfl, rfl, hnoput⟩

/-- Witness for C6 with no skip flag and a declining prompt. -/
theorem claim_C6_confirm_false_no_mutation_witness :
    ((confirmArchive [] 0 false).1 = false) ∧
    ((run [] wResps wPut false).stats.total = 0 ∧
     (run [] wResps wPut false).stats.archived = 0 ∧
     (run [] wResps wPut false).stats.alreadyArchived = 0 ∧
     (run [] wResps wPut false).stats.failed = 0 ∧
     (run [] wResps wPut false).events.all (fun e => !e.isPut) = true) :=
  ⟨by decide, claim_C6_confirm_false_no_mutation [] wResps wPut false 0 (by decide)⟩

/-- C7: `displayThreadInfo`'s two filters partition the input: their
concatenation is a permutation of the input, their lengths add up to the total,
and every input thread lands in exactly the group its `archived_flag`
prescribes (falsy flag in unarchived only, truthy flag in archived only). -/
theorem claim_C7_classify_partitions (threads : List Thread) :
    (unarchivedOf threads ++ archivedOf threads).Perm threads ∧
    (unarchivedOf threads).length + (archivedOf threads).length = threads.length ∧
    threads.all (fun t =>
      if t.archived_flag == 0
      then decide (t ∈ unarchivedOf threads) && !decide (t ∈ archivedOf threads)
      else decide (t ∈ archivedOf threads) && !decide (t ∈ unarchivedOf threads)) = true := by
  have hperm : (unarchivedOf threads ++ archivedOf threads).Perm threads :=
    List.filter_append_perm (fun (t : Thread) => t.archived_flag == 0) threads
  refine ⟨hperm, ?_, ?_⟩
  · have hlen := hperm.length_eq
    simpa [List.length_append] using hlen
  · rw [List.all_eq_true]
    intro t ht
    by_cases hflag : t.archived_flag = 0
    · simp [hflag, unarchivedOf, archivedOf, List.mem_filter, ht]
    · simp [hflag, unarchivedOf, archivedOf, List.mem_filter, ht]

/-- C8: after any run, `archived + failed ≤ total`, and every PUT request in
the run's trace targets the id of a fetched thread with a falsy
`archived_flag` — already-archived threads are never submitted for mutation. -/
theorem claim_C8_run_stats_invariant (argv : List String) (resps : List FetchResp)
    (putResp : Nat → PutOutcome) (promptAnswer : Bool) :
    (run argv resps putResp promptAnswer).stats.archived +
      (run argv resps putResp promptAnswer).stats.failed ≤
      (run argv resps putResp promptAnswer).stats.total ∧
    (run argv resps putResp promptAnswer).events.all (putFromUnarchived resps) = true := by
  have hfetchall : (getAllThreads resps).2.all (putFromUnarchived resps) = true :=
    getAllThreads_events_pred resps _ (fun _ => rfl)
  cases hres : (getAllThreads resps).1 with
  | error m =>
    rw [run_fetch_error argv resps putResp promptAnswer m hres]
    exact ⟨Nat.le_refl 0, hfetchall⟩
  | ok ts =>
    by_cases h0 : ts.length = 0
    · rw [run_no_threads argv resps putResp promptAnswer ts hres h0]
      exact ⟨Nat.le_refl 0, hfetchall⟩
    · by_cases h1 : (displayThreadInfo ts).length = 0
      · rw [run_all_archived argv resps putResp promptAnswer ts hres h1]
        exact ⟨Nat.le_refl 0, hfetchall⟩
      · by_cases hconf :
            (confirmArchive argv (displayThreadInfo ts).length promptAnswer).1 = true
        · rw [run_archive_case argv resps putResp promptAnswer ts hres h0 h1 hconf]
          by_cases hd : "--dry-run" ∈ argv
          · have hda : archiveAll argv putResp (displayThreadInfo ts) initStats =
                (initStats, (displayThreadInfo ts).map (fun t => Event.dryList t.id)) := by
              simp [archiveAll, hd]
            have hdryall : ((displayThreadInfo ts).map (fun t => Event.dryList t.id)).all
                (putFromUnarchived resps) = true := by
              rw [List.all_eq_true]
              intro e he
              rw [List.mem_map] at he
              obtain ⟨t, _, rfl⟩ := he
              rfl
            rw [hda]
            refine ⟨Nat.le_refl 0, ?_⟩
            rw [List.all_append, hfetchall, hdryall]
            rfl
          · have hordinary : archiveAll argv putResp (displayThreadInfo ts) initStats =
                archiveAllLoop putResp (displayThreadInfo ts)
                  { total := (displayThreadInfo ts).length, archived := 0,
                    alreadyArchived := 0, failed := 0 } := by
              simp [archiveAll, hd, initStats]
            obtain ⟨hT, _, hA, hF⟩ := archiveAllLoop_stats putResp (displayThreadInfo ts)
              { total := (displayThreadInfo ts).length, archived := 0,
                alreadyArchived := 0, failed := 0 }
            have hc := countP_not_add (displayThreadInfo ts)
              (fun t => ackSuccess (putResp t.id))
            have hev := archiveAllLoop_events putResp (displayThreadInfo ts)
              { total := (displayThreadInfo ts).length, archived := 0,
                alreadyArchived := 0, failed := 0 }
            have hputall : ((displayThreadInfo ts).map (fun t => Event.put t.id)).all
                (putFromUnarchived resps) = true := by
              rw [List.all_eq_true]
              intro e he
              rw [List.mem_map] at he
              obtain ⟨t, htm, rfl⟩ := he
              simp only [putFromUnarchived, hres, decide_eq_true_eq]
              exact List.mem_map.mpr ⟨t, htm, rfl⟩
            dsimp only at hT hA hF
            rw [hordinary]
            constructor
            · rw [hA, hF, hT]
              omega
            · rw [hev, List.all_append, hfetchall, hputall]
              rfl
        · have hconf' :
              (confirmArchive argv (displayThreadInfo ts).length promptAnswer).1 = false := by
            simpa using hconf
          rw [run_declined argv resps putResp promptAnswer ts hres hconf']
          exact ⟨Nat.le_refl 0, hfetchall⟩

/-- C10: the `alreadyArchived` statistic is initialised to 0 and never
incremented by any operation — `archiveThread` and `archiveAll` leave it
unchanged and every run ends with it equal to 0, whatever threads were
fetched. -/
theorem claim_C10_alreadyArchived_never_incremented (argv : List String)
    (resps : List FetchResp) (putResp : Nat → PutOutcome) (promptAnswer : Bool)
    (stats : Stats) (tid : Nat) (threads : List Thread) :
    initStats.alreadyArchived = 0 ∧
    (archiveThread putResp stats tid).2.1.alreadyArchived = stats.alreadyArchived ∧
    (archiveAll argv putResp threads stats).1.alreadyArchived = stats.alreadyArchived ∧
    (run argv resps putResp promptAnswer).stats.alreadyArchived = 0 := by
  have harchAll : ∀ (a : List String) (th : List Thread) (s : Stats),
      (archiveAll a putResp th s).1.alreadyArchived = s.alreadyArchived := by
    intro a th s
    by_cases hd : "--dry-run" ∈ a
    · simp [archiveAll, hd]
    · have harch : archiveAll a putResp th s =
          archiveAllLoop putResp th
            { total := th.length, archived := s.archived,
              alreadyArchived := s.alreadyArchived, failed := s.failed } := by
        simp [archiveAll, hd]
      have hpres := (archiveAllLoop_stats putResp th
        { total := th.length, archived := s.archived,
          alreadyArchived := s.alreadyArchived, failed := s.failed }).2.1
      dsimp only at hpres
      rw [harch, hpres]
  refine ⟨rfl, ?_, harchAll argv threads stats, ?_⟩
  · cases hput : putResp tid with
    | ok b => cases b <;> simp [archiveThread, hput]
    | err m => simp [archiveThread, hput]
  · cases hres : (getAllThreads resps).1 with
    | error m =>
      rw [run_fetch_error argv resps putResp promptAnswer m hres]
      rfl
    | ok ts =>
      by_cases h0 : ts.length = 0
      · rw [run_no_threads argv resps putResp promptAnswer ts hres h0]
        rfl
      · by_cases h1 : (displayThreadInfo ts).length = 0
        · rw [run_all_archived argv resps putResp promptAnswer ts hres h1]
          rfl
        · by_cases hconf :
              (confirmArchive argv (displayThreadInfo ts).length promptAnswer).1 = true
          · rw [run_archive_case argv resps putResp promptAnswer ts hres h0 h1 hconf]
            exact harchAll argv (displayThreadInfo ts) initStats
          · have hconf' :
                (confirmArchive argv (displayThreadInfo ts).length promptAnswer).1 =
                  false := by
              simpa using hconf
            rw [run_declined argv resps putResp promptAnswer ts hres hconf']
            rfl

end Archiver
